import Mathlib

/-!
Verification development for the AIrtifex inference core
(src/airtifex-api/src/llm/llama.rs).

The Rust code is shallowly embedded as pure Lean functions.  External
collaborators (the llama model, the token channel, the database) are
modelled as oracles recorded in the data: each request carries the outcome
of its one-time prompt feed, the successive outcomes the model produces
for its session, and whether the caller still holds the receiving end of
the output channel.  Machine strings are Lean strings; the byte-level
token accumulator works over lists of byte values (Nat).
-/

namespace AIrtifex

/-- Role tag of a stored chat turn (airtifex_core::llm::ChatEntryType). -/
inductive ChatEntryType where
  | user
  | bot
deriving DecidableEq

/-- Modelled from the spec: the chat-entry record (models/chat_entry.rs) is
not among the provided sources; per the spec a stored turn carries a
conversation identifier, a role tag and the turn content. -/
structure ChatEntry where
  conversation_id : Nat
  entry_type : ChatEntryType
  content : String
deriving DecidableEq

/-- Modelled from the spec: ChatEntry::new_user builds a user-tagged turn. -/
def ChatEntry.new_user (conversation_id : Nat) (content : String) : ChatEntry :=
  { conversation_id := conversation_id, entry_type := ChatEntryType.user, content := content }

/-- Modelled from the spec: ChatEntry::new_bot builds a bot-tagged turn. -/
def ChatEntry.new_bot (conversation_id : Nat) (content : String) : ChatEntry :=
  { conversation_id := conversation_id, entry_type := ChatEntryType.bot, content := content }

/-- Conversation context attached to a request (struct ChatData). -/
structure ChatData where
  user : String
  conversation_id : Nat
  history : List ChatEntry
deriving DecidableEq

/-- One outcome of the model collaborator for a single call of
llama_rs InferenceSession::infer_next_token: a raw token (a byte
sequence that may be an incomplete UTF-8 fragment), the distinguished
end-of-text error, or any other model error. -/
inductive ModelOutcome where
  | token (bytes : List Nat)
  | endOfText
  | modelError
deriving DecidableEq

/-- struct InferenceRequest.  The tx_tokens channel is modelled by the
receiver_connected oracle; feed_ok and script are the oracles for the
model collaborator (feed_prompt result and the successive
infer_next_token outcomes of the session born from this request).
Floating-point sampling overrides (top_p, repeat_penalty, temp) are
opaque to the control flow and omitted. -/
structure InferenceRequest where
  receiver_connected : Bool
  chat_data : Option ChatData
  num_predict : Option Nat
  prompt : String
  system_prompt : Option String
  n_batch : Option Nat
  top_k : Option Nat
  play_back_tokens : Bool
  feed_ok : Bool
  script : List ModelOutcome
deriving DecidableEq

/-- struct SaveDataRequest: the completion record handed to the
persistence worker. -/
structure SaveDataRequest where
  conversation_id : Nat
  input : String
  output : String
deriving DecidableEq

/-- struct InferenceState (the mutable progress state of a session). -/
structure InferenceState where
  processed_tokens : Nat
  answer : String
  processed_prompt : String
  is_finished : Bool
deriving DecidableEq

/-! ## Byte-level UTF-8 validity and the token accumulator -/

/-- Whether a byte is a UTF-8 continuation byte (10xxxxxx). -/
def contByte (b : Nat) : Bool := decide (128 ≤ b) && decide (b < 192)

/-- Whether a byte list is a complete, valid UTF-8 encoding. -/
def validUtf8 : List Nat → Bool
  | [] => true
  | b :: rest =>
    if b < 128 then validUtf8 rest
    else if 192 ≤ b ∧ b < 224 then
      match rest with
      | c1 :: r => contByte c1 && validUtf8 r
      | [] => false
    else if 224 ≤ b ∧ b < 240 then
      match rest with
      | c1 :: c2 :: r => contByte c1 && contByte c2 && validUtf8 r
      | _ => false
    else if 240 ≤ b ∧ b < 248 then
      match rest with
      | c1 :: c2 :: c3 :: r => contByte c1 && contByte c2 && contByte c3 && validUtf8 r
      | _ => false
    else false

/-- Modelled from the spec: the Token Accumulator (llama_rs
TokenUtf8Buffer) is provided by the external llama_rs crate and is not
among the provided sources.  Per the spec it buffers raw byte units and
a push yields the buffered bytes as a chunk exactly when they have
become a complete, valid text sequence; otherwise the unit is retained
and nothing is emitted. -/
def pushUnit (buf : List Nat) (unit : List Nat) : List Nat × Option (List Nat) :=
  let b := buf ++ unit
  if validUtf8 b then ([], some b) else (b, none)

/-- Run the accumulator over a sequence of raw units starting from a
pending buffer and already-emitted chunks; returns the final pending
buffer and the full chunk sequence. -/
def runAccumFrom (buf : List Nat) (chunks : List (List Nat)) :
    List (List Nat) → List Nat × List (List Nat)
  | [] => (buf, chunks)
  | u :: us =>
    let p := pushUnit buf u
    match p.2 with
    | none => runAccumFrom p.1 chunks us
    | some c => runAccumFrom p.1 (chunks ++ [c]) us

/-- Run the accumulator from the empty initial state. -/
def runAccum (units : List (List Nat)) : List Nat × List (List Nat) :=
  runAccumFrom [] [] units

/-- Decoding of a complete byte chunk into the Lean string that models the
Rust String the accumulator hands back (the model stand-in for the
String conversion inside TokenUtf8Buffer::push). -/
def decodeBytes (l : List Nat) : String :=
  String.mk (l.map (fun b => Char.ofNat b))

/-- Concatenation of a list of strings, in order. -/
def concatStrings : List String → String
  | [] => ""
  | x :: l => x ++ concatStrings l

/-! ## Prompt construction -/

def ANSWER_PREFIX : String := "Llama: "

def USER_PREFIX : String := "User: "

/-- The literal history slot of the template. -/
def HISTORY_SLOT : String := "\x7b\x7bHISTORY\x7d\x7d"

/-- The literal prompt slot of the template. -/
def PROMPT_SLOT : String := "\x7b\x7bPROMPT\x7d\x7d"

/-- const CONVERSATION_PROMPT: the default system template. -/
def CONVERSATION_PROMPT : String :=
  "Your name is Llama and you are a helpful virtual assistant.\n" ++
  "As Llama, you fulfill users request in the most effective way and your answer is never empty.\n" ++
  "Below is a dialog between a user and you.\n" ++
  "Write a response to the request in the \x27### Request:\x27 section that appropriately completes the request.\n" ++
  "\n### Conversation:\n" ++ HISTORY_SLOT ++ "\n\n### Request:\n" ++ PROMPT_SLOT ++
  "\n\n### Response:"

/-- The fold body rendering one history turn onto the accumulator: push
the role marker, then the turn content, then a newline. -/
def historyFoldStep (acc : String) (x : ChatEntry) : String :=
  acc ++ (match x.entry_type with
    | ChatEntryType.bot => ANSWER_PREFIX
    | ChatEntryType.user => USER_PREFIX) ++ x.content ++ "\n"

/-- Prompt construction exactly as in
InferenceSessionManager::get_inference_session: with conversation
context, fold the history into a marker-prefixed rendering and
substitute the two slots of the template (request override, else the
default); without context, the request prompt verbatim. -/
def mkPrompt (request : InferenceRequest) : String :=
  match request.chat_data with
  | some chat =>
    let history := chat.history.foldl historyFoldStep ""
    let user_prompt := USER_PREFIX ++ request.prompt
    ((request.system_prompt.getD CONVERSATION_PROMPT).replace HISTORY_SLOT history).replace
      PROMPT_SLOT user_prompt
  | none => request.prompt

/-- Rendering of one history turn as the claim words it: the role marker
for the turn, then its content, then a newline. -/
def renderTurnSpec (x : ChatEntry) : String :=
  (match x.entry_type with
    | ChatEntryType.user => USER_PREFIX
    | ChatEntryType.bot => ANSWER_PREFIX) ++ x.content ++ "\n"

/-- Prompt construction as the claim states it (the spec-side definition
for the refinement comparison): the chosen template with the history
slot replaced by the in-order concatenation of the rendered turns and
the prompt slot replaced by the marker-prefixed current turn; without
context, the request text verbatim. -/
def mkPromptSpec (request : InferenceRequest) : String :=
  match request.chat_data with
  | some chat =>
    let template := request.system_prompt.getD CONVERSATION_PROMPT
    let history := concatStrings (chat.history.map renderTurnSpec)
    (template.replace HISTORY_SLOT history).replace PROMPT_SLOT (USER_PREFIX ++ request.prompt)
  | none => request.prompt

/-! ## Running sessions and the per-step inference loop -/

/-- struct RunningInferenceSession.  The live model-session handle is
modelled by the remaining outcome script; sent and produced are ghost
observation logs (chunks delivered on tx_tokens, and chunks yielded by
the accumulator, respectively). -/
structure RunningInferenceSession where
  id : Nat
  script : List ModelOutcome
  request : InferenceRequest
  state : InferenceState
  sent : List String
  produced : List String
deriving DecidableEq

/-- RunningInferenceSession::save_results: mark the session finished and,
when it has conversation context and a non-empty accumulated answer,
emit one SaveDataRequest on the results channel (the unbounded channel
to the persistence worker never rejects a try_send while the worker
lives, so the send is modelled as succeeding). -/
def save_results (s : RunningInferenceSession) :
    RunningInferenceSession × List SaveDataRequest :=
  let s2 := { s with state.is_finished := true }
  match s2.request.chat_data with
  | some chat =>
    let output := s2.state.answer
    if output.isEmpty then (s2, [])
    else
      (s2, [{ conversation_id := chat.conversation_id,
              input := s2.request.prompt, output := output }])
  | none => (s2, [])

/-- Result tag of one call of RunningInferenceSession::infer_next_token:
Ok, a model error propagated to the caller, or a failed send because the
receiver was dropped. -/
inductive StepResult where
  | ok
  | modelErr
  | sendErr
deriving DecidableEq

/-- The loop body of RunningInferenceSession::infer_next_token: repeatedly
ask the model for a raw token and push it through a fresh TokenUtf8Buffer;
on end-of-text save results and stop; on any other model error return the
error; on a completed chunk append it to the answer, bump the processed
count, and send it to the caller, saving results and returning a send
error when the receiver is gone.  An exhausted outcome script is read as
a model error. -/
def inferLoop (buf : List Nat) (s : RunningInferenceSession) :
    List ModelOutcome → RunningInferenceSession × List SaveDataRequest × StepResult
  | [] => ({ s with script := [] }, [], StepResult.modelErr)
  | ModelOutcome.endOfText :: rest =>
    let r := save_results { s with script := rest }
    (r.1, r.2, StepResult.ok)
  | ModelOutcome.modelError :: rest =>
    ({ s with script := rest }, [], StepResult.modelErr)
  | ModelOutcome.token bytes :: rest =>
    let p := pushUnit buf bytes
    match p.2 with
    | none => inferLoop p.1 s rest
    | some chunk =>
      let tok := decodeBytes chunk
      let s2 : RunningInferenceSession :=
        { s with
          script := rest
          state.answer := s.state.answer ++ tok
          state.processed_tokens := s.state.processed_tokens + 1
          produced := s.produced ++ [tok] }
      if s2.request.receiver_connected then
        ({ s2 with sent := s2.sent ++ [tok] }, [], StepResult.ok)
      else
        let r := save_results s2
        (r.1, r.2, StepResult.sendErr)

/-- RunningInferenceSession::infer_next_token: one inference step, always
starting from a fresh (empty) token buffer, consuming the session
outcome script (whose remainder is written back into the session at
every exit point of the loop). -/
def infer_next_token (s : RunningInferenceSession) :
    RunningInferenceSession × List SaveDataRequest × StepResult :=
  inferLoop [] s s.script

/-! ## The scheduler tick -/

/-- The llm section of the service configuration; only the session cap
matters to the scheduler control flow (model path, context size, memory
type and sampling defaults configure the external model collaborator). -/
structure LlmConfig where
  max_inference_sessions : Nat
deriving DecidableEq

/-- The num_predict admission gate of the scheduler step phase:
processed_tokens <= num_predict.unwrap_or(usize::MAX); with no limit the
usize comparison is always true. -/
def withinLimit (s : RunningInferenceSession) : Bool :=
  match s.request.num_predict with
  | some n => decide (s.state.processed_tokens ≤ n)
  | none => true

/-- The per-session body of the scheduler step phase: step the session
once when its processed count is within the limit (a returned error is
only logged), otherwise mark it finished without stepping. -/
def step_session (s : RunningInferenceSession) :
    RunningInferenceSession × List SaveDataRequest :=
  if withinLimit s then
    let r := infer_next_token s
    (r.1, r.2.1)
  else
    ({ s with state.is_finished := true }, [])

/-- The scheduler step phase over the whole active list, in order; the
loop mutates each session in place and each save request goes to the
results channel, so the phase is the pointwise map of step_session with
the per-session save requests concatenated in order. -/
def stepAll (l : List RunningInferenceSession) :
    List RunningInferenceSession × List SaveDataRequest :=
  (l.map (fun s => (step_session s).1),
   (l.map (fun s => (step_session s).2)).flatten)

/-- InferenceSessionManager::get_inference_session: build the running
session for a request (fresh id, prompt constructed here, progress state
defaulted). -/
def get_inference_session (request : InferenceRequest) (id : Nat) :
    RunningInferenceSession :=
  { id := id
    script := request.script
    request := request
    state := { processed_tokens := 0, answer := "",
               processed_prompt := mkPrompt request, is_finished := false }
    sent := []
    produced := [] }

/-- Result of the admission loop: the queue left behind, the sessions
admitted in order, the next fresh id, and two ghost logs — requests
popped and discarded with no feed attempt (the while-let condition pops
before checking free_spots), and requests dropped because their prompt
feed failed. -/
structure AdmitResult where
  queue : List InferenceRequest
  admitted : List RunningInferenceSession
  next_id : Nat
  dropped_unfed : List InferenceRequest
  dropped_feed_failed : List InferenceRequest
deriving DecidableEq

/-- The admission while-loop of the scheduler:
while let Some(req) = queue.pop_front() && free_spots > 0.  The pop is
evaluated first; only then is free_spots checked, so when free_spots is
zero the popped request is dropped without any feed attempt and the loop
exits.  With free capacity, a successful feed admits the session and
consumes a slot; a failed feed only logs and consumes nothing. -/
def admitLoop (queue : List InferenceRequest) (free_spots : Nat) (next_id : Nat) :
    AdmitResult :=
  match queue with
  | [] => { queue := [], admitted := [], next_id := next_id,
            dropped_unfed := [], dropped_feed_failed := [] }
  | req :: rest =>
    if 0 < free_spots then
      if req.feed_ok then
        let r := admitLoop rest (free_spots - 1) (next_id + 1)
        { r with admitted := get_inference_session req next_id :: r.admitted }
      else
        let r := admitLoop rest free_spots next_id
        { r with dropped_feed_failed := req :: r.dropped_feed_failed }
    else
      { queue := rest, admitted := [], next_id := next_id,
        dropped_unfed := [req], dropped_feed_failed := [] }

/-- The scheduler thread state: the shared REQUEST_QUEUE contents, the
active session list, a fresh-id counter, and ghost logs of everything
sent on the results channel and of requests discarded without a feed
attempt. -/
structure SchedulerState where
  queue : List InferenceRequest
  running : List RunningInferenceSession
  next_id : Nat
  saved_log : List SaveDataRequest
  dropped_unfed : List InferenceRequest
deriving DecidableEq

/-- The admission block of a scheduler iteration: with free capacity and
a successful non-blocking lock acquisition, run the admission loop over
the shared queue. -/
def admitPhase (cfg : LlmConfig) (lock_ok : Bool) (st : SchedulerState) :
    SchedulerState :=
  let free_spots := cfg.max_inference_sessions - st.running.length
  if 0 < free_spots then
    if lock_ok then
      let r := admitLoop st.queue free_spots st.next_id
      { st with
        queue := r.queue
        running := st.running ++ r.admitted
        next_id := r.next_id
        dropped_unfed := st.dropped_unfed ++ r.dropped_unfed }
    else st
  else st

/-- One iteration of the scheduler loop.  lock_ok is the oracle for this
tick of REQUEST_QUEUE.try_write(): admission happens only with free
capacity and the lock; then every active session is stepped (or reaped
at the limit), and finished sessions are retained out. -/
def tick (cfg : LlmConfig) (lock_ok : Bool) (st : SchedulerState) : SchedulerState :=
  let st1 := admitPhase cfg lock_ok st
  let stepped := stepAll st1.running
  { st1 with
    running := stepped.1.filter (fun s => !s.state.is_finished)
    saved_log := st1.saved_log ++ stepped.2 }

/-! ## The intake thread -/

/-- State of the request-intake thread: the locally staged requests
(temp_queue) and the sequence of requests pushed into the shared
REQUEST_QUEUE so far, in push order. -/
structure IntakeState where
  temp_queue : List InferenceRequest
  pushed : List InferenceRequest
deriving DecidableEq

/-- One iteration of the intake loop on receiving a request, with lock_ok
the oracle for REQUEST_QUEUE.try_write(): on success all staged requests
are flushed into the queue ahead of the newest arrival; on contention
the arrival is staged locally at the back. -/
def intakeStep (st : IntakeState) (req : InferenceRequest) (lock_ok : Bool) :
    IntakeState :=
  if lock_ok then
    { temp_queue := [], pushed := st.pushed ++ st.temp_queue ++ [req] }
  else
    { st with temp_queue := st.temp_queue ++ [req] }

/-- The intake loop over a sequence of arrival events (request, lock
outcome), in arrival order. -/
def intakeRun (st : IntakeState) (events : List (InferenceRequest × Bool)) :
    IntakeState :=
  events.foldl (fun s e => intakeStep s e.1 e.2) st

/-! ## The persistence hand-off worker -/

/-- One store call issued to the persistence collaborator, in issue
order, tagged with the outcome the collaborator returned (the oracle). -/
structure StoreAttempt where
  entry : ChatEntry
  succeeded : Bool
deriving DecidableEq

/-- The body of the persistence worker for one consumed SaveDataRequest
(the spawned task of the results thread): build the user turn then the
bot turn, both tagged with the conversation id of the record, store the
user turn then — regardless of the first outcome — the bot turn, logging
each failure individually.  user_ok and bot_ok are the collaborator
oracles; the result is the ordered attempt log and the error log. -/
def handle_save_data_request (r : SaveDataRequest) (user_ok bot_ok : Bool) :
    List StoreAttempt × List String :=
  let user := ChatEntry.new_user r.conversation_id r.input
  let bot := ChatEntry.new_bot r.conversation_id r.output
  let userAttempt : StoreAttempt := { entry := user, succeeded := user_ok }
  let userLog := if user_ok then [] else ["failed to save user chat entry"]
  let botAttempt : StoreAttempt := { entry := bot, succeeded := bot_ok }
  let botLog := if bot_ok then [] else ["failed to save bot chat entry"]
  ([userAttempt, botAttempt], userLog ++ botLog)

/-! ## Spec-side descriptions and invariants used in theorem statements -/

/-- The completion records one inference step emits, described from the
spec side: exactly one record — carrying the conversation id, the
original user input and the accumulated answer — when the step finished
the session while it had conversation context and a non-empty answer;
none otherwise. -/
def stepRecords (fin : Bool) (chat_data : Option ChatData) (input : String)
    (answer : String) : List SaveDataRequest :=
  if fin then
    match chat_data with
    | some chat =>
      if answer.isEmpty then []
      else [{ conversation_id := chat.conversation_id, input := input, output := answer }]
    | none => []
  else []

/-- Per-session bookkeeping invariant: the chunks delivered to the caller
never outnumber the processed tokens, and the processed count stays
within one past the configured token limit. -/
def SessionInv (s : RunningInferenceSession) : Prop :=
  s.sent.length ≤ s.state.processed_tokens
    ∧ ∀ n, s.request.num_predict = some n → s.state.processed_tokens ≤ n + 1

/-- The scheduler-wide session invariant: every active session satisfies
SessionInv. -/
def SchedInv (st : SchedulerState) : Prop :=
  ∀ s ∈ st.running, SessionInv s

/-! ## Concrete fixtures for counterexamples and witnesses -/

/-- A plain request: no conversation context, no token limit, connected
receiver, successful feed, empty model script. -/
def baseRequest : InferenceRequest :=
  { receiver_connected := true
    chat_data := none
    num_predict := none
    prompt := "Hello"
    system_prompt := none
    n_batch := none
    top_k := none
    play_back_tokens := false
    feed_ok := true
    script := [] }

/-- A configuration with a single inference session slot. -/
def cfgOne : LlmConfig := { max_inference_sessions := 1 }

def reqA : InferenceRequest := { baseRequest with prompt := "a" }

def reqB : InferenceRequest := { baseRequest with prompt := "b" }

/-- Scheduler state with two feed-ready requests queued and no active
session. -/
def stTwoQueued : SchedulerState :=
  { queue := [reqA, reqB], running := [], next_id := 0,
    saved_log := [], dropped_unfed := [] }

/-- An active session whose next model outcome is a (non end-of-text)
model error. -/
def sErr : RunningInferenceSession :=
  { id := 7
    script := [ModelOutcome.modelError]
    request := { baseRequest with script := [ModelOutcome.modelError] }
    state := { processed_tokens := 0, answer := "", processed_prompt := "",
               is_finished := false }
    sent := []
    produced := [] }

def stErr : SchedulerState :=
  { queue := [], running := [sErr], next_id := 1, saved_log := [], dropped_unfed := [] }

/-- An active session with token limit zero whose model still has a
complete one-byte token to offer. -/
def sLim : RunningInferenceSession :=
  { id := 3
    script := [ModelOutcome.token [72]]
    request := { baseRequest with
                 num_predict := some 0
                 script := [ModelOutcome.token [72]] }
    state := { processed_tokens := 0, answer := "", processed_prompt := "",
               is_finished := false }
    sent := []
    produced := [] }

def stLim : SchedulerState :=
  { queue := [], running := [sLim], next_id := 4, saved_log := [], dropped_unfed := [] }

/-- An active conversational session with a non-empty accumulated answer
whose processed-token count already exceeds its limit. -/
def sExh : RunningInferenceSession :=
  { id := 5
    script := [ModelOutcome.token [72]]
    request := { baseRequest with
                 num_predict := some 3
                 chat_data := some { user := "u", conversation_id := 9, history := [] }
                 script := [ModelOutcome.token [72]] }
    state := { processed_tokens := 5, answer := "hi", processed_prompt := "",
               is_finished := false }
    sent := ["h", "i"]
    produced := ["h", "i"] }

def stExh : SchedulerState :=
  { queue := [], running := [sExh], next_id := 6, saved_log := [], dropped_unfed := [] }

/-- An active conversational session about to observe end of stream with
a non-empty accumulated answer. -/
def sEnd : RunningInferenceSession :=
  { id := 11
    script := [ModelOutcome.endOfText]
    request := { baseRequest with
                 chat_data := some { user := "u", conversation_id := 9, history := [] }
                 script := [ModelOutcome.endOfText] }
    state := { processed_tokens := 2, answer := "hi", processed_prompt := "",
               is_finished := false }
    sent := ["hi"]
    produced := ["hi"] }

/-- An active conversational session whose caller has dropped the
receiving end of the output channel, with one complete token pending. -/
def sDrop : RunningInferenceSession :=
  { id := 13
    script := [ModelOutcome.token [72]]
    request := { baseRequest with
                 receiver_connected := false
                 chat_data := some { user := "u", conversation_id := 9, history := [] }
                 script := [ModelOutcome.token [72]] }
    state := { processed_tokens := 0, answer := "", processed_prompt := "",
               is_finished := false }
    sent := []
    produced := [] }

/-! ## Helper lemmas -/

theorem concatStrings_snoc (l : List String) (x : String) :
    concatStrings (l ++ [x]) = concatStrings l ++ x := by
  induction l with
  | nil => simp [concatStrings, String.append_empty, String.empty_append]
  | cons y l ih => simp [concatStrings, ih, String.append_assoc]

theorem historyFold_eq_concat (l : List ChatEntry) (acc : String) :
    l.foldl historyFoldStep acc = acc ++ concatStrings (l.map renderTurnSpec) := by
  induction l generalizing acc with
  | nil => simp [concatStrings, String.append_empty]
  | cons x l ih =>
    simp only [List.foldl_cons, List.map_cons, concatStrings]
    rw [ih]
    cases h : x.entry_type <;>
      simp [historyFoldStep, renderTurnSpec, h, String.append_assoc]

theorem intake_inv (events : List (InferenceRequest × Bool)) (st : IntakeState) :
    (intakeRun st events).pushed ++ (intakeRun st events).temp_queue
      = st.pushed ++ st.temp_queue ++ events.map Prod.fst := by
  induction events generalizing st with
  | nil => simp [intakeRun]
  | cons e es ih =>
    have hstep : intakeRun st (e :: es) = intakeRun (intakeStep st e.1 e.2) es := by
      simp [intakeRun]
    rw [hstep, ih]
    cases he : e.2 <;> simp [intakeStep, he]

/-! ## Claim theorems: prompt construction, intake, persistence worker -/

/-- C7: with conversation context, the constructed prompt is the chosen
template (request override, else the default system template) with the
history slot replaced by the in-order rendering of the prior turns, each
prefixed by its role marker and followed by a newline, and the prompt
slot replaced by the marker-prefixed current user turn; without context
it is the request prompt verbatim.  Stated as a refinement: the source
construction coincides with the construction written from the words of
the claim. -/
theorem C7_prompt_template (request : InferenceRequest) :
    mkPrompt request = mkPromptSpec request := by
  cases hc : request.chat_data with
  | none => simp [mkPrompt, mkPromptSpec, hc]
  | some chat =>
    simp [mkPrompt, mkPromptSpec, hc, historyFold_eq_concat, String.empty_append]

/-- C8: on the intake thread no request is lost or reordered: after any
sequence of arrival events, the requests pushed into the shared queue
followed by the locally staged requests are exactly the arrivals in
arrival order (so the shared queue receives every request, in FIFO
order, with staged items flushed ahead of newer arrivals). -/
theorem C8_intake_fifo (events : List (InferenceRequest × Bool)) :
    (intakeRun { temp_queue := [], pushed := [] } events).pushed
        ++ (intakeRun { temp_queue := [], pushed := [] } events).temp_queue
      = events.map Prod.fst := by
  rw [intake_inv]
  simp

/-- C9: for each consumed record the persistence worker issues exactly
two store attempts in order — the user turn then the bot turn, both
tagged with the record conversation id — independently of either store
outcome (so a failed user store never prevents the bot attempt), and
each failure is logged individually, with nothing retried or propagated
(the worker only returns its logs). -/
theorem C9_persistence_worker (r : SaveDataRequest) (user_ok bot_ok : Bool) :
    (handle_save_data_request r user_ok bot_ok).1
        = [{ entry := ChatEntry.new_user r.conversation_id r.input, succeeded := user_ok },
           { entry := ChatEntry.new_bot r.conversation_id r.output, succeeded := bot_ok }]
      ∧ ((handle_save_data_request r user_ok bot_ok).1.map
            (fun a => a.entry.conversation_id)) = [r.conversation_id, r.conversation_id]
      ∧ ((handle_save_data_request r user_ok bot_ok).1.map
            (fun a => a.entry.entry_type)) = [ChatEntryType.user, ChatEntryType.bot]
      ∧ (handle_save_data_request r user_ok bot_ok).2
        = (if user_ok then [] else ["failed to save user chat entry"])
            ++ (if bot_ok then [] else ["failed to save bot chat entry"]) := by
  refine ⟨rfl, ?_, ?_, rfl⟩ <;>
    simp [handle_save_data_request, ChatEntry.new_user, ChatEntry.new_bot]

/-! ## Accumulator lemmas -/

theorem runAccumFrom_cons_none (buf u : List Nat) (chunks us : List (List Nat))
    (hv : validUtf8 (buf ++ u) = false) :
    runAccumFrom buf chunks (u :: us) = runAccumFrom (buf ++ u) chunks us := by
  simp [runAccumFrom, pushUnit, hv]

theorem runAccumFrom_cons_some (buf u : List Nat) (chunks us : List (List Nat))
    (hv : validUtf8 (buf ++ u) = true) :
    runAccumFrom buf chunks (u :: us) = runAccumFrom [] (chunks ++ [buf ++ u]) us := by
  simp [runAccumFrom, pushUnit, hv]

theorem runAccumFrom_concat (us : List (List Nat)) (buf : List Nat)
    (chunks : List (List Nat)) :
    (runAccumFrom buf chunks us).2.flatten ++ (runAccumFrom buf chunks us).1
      = chunks.flatten ++ buf ++ us.flatten := by
  induction us generalizing buf chunks with
  | nil => simp [runAccumFrom]
  | cons u us ih =>
    cases hv : validUtf8 (buf ++ u) with
    | false =>
      rw [runAccumFrom_cons_none buf u chunks us hv, ih]
      simp [List.append_assoc]
    | true =>
      rw [runAccumFrom_cons_some buf u chunks us hv, ih]
      simp [List.append_assoc]

theorem runAccumFrom_valid (us : List (List Nat)) (buf : List Nat)
    (chunks : List (List Nat)) (h : ∀ c ∈ chunks, validUtf8 c = true) :
    ∀ c ∈ (runAccumFrom buf chunks us).2, validUtf8 c = true := by
  induction us generalizing buf chunks with
  | nil => simpa [runAccumFrom] using h
  | cons u us ih =>
    cases hv : validUtf8 (buf ++ u) with
    | false =>
      rw [runAccumFrom_cons_none buf u chunks us hv]
      exact ih _ _ h
    | true =>
      rw [runAccumFrom_cons_some buf u chunks us hv]
      refine ih _ _ ?_
      intro c hc
      rcases List.mem_append.mp hc with hc | hc
      · exact h c hc
      · rcases List.mem_singleton.mp hc with rfl
        exact hv

/-! ## Lemmas about save_results and the inference step -/

theorem save_results_fst (s : RunningInferenceSession) :
    (save_results s).1 = { s with state.is_finished := true } := by
  simp only [save_results]
  cases h : s.request.chat_data with
  | none => simp [h]
  | some chat =>
    simp [h]
    split <;> rfl

theorem save_results_snd (s : RunningInferenceSession) :
    (save_results s).2
      = match s.request.chat_data with
        | some chat =>
          if s.state.answer.isEmpty then []
          else [{ conversation_id := chat.conversation_id,
                  input := s.request.prompt, output := s.state.answer }]
        | none => [] := by
  simp only [save_results]
  cases h : s.request.chat_data with
  | none => simp [h]
  | some chat =>
    simp [h]
    split <;> rfl

theorem inferLoop_request (scr : List ModelOutcome) :
    ∀ (buf : List Nat) (s : RunningInferenceSession),
      (inferLoop buf s scr).1.request = s.request := by
  induction scr with
  | nil => intro buf s; rfl
  | cons o rest ih =>
    intro buf s
    cases o with
    | endOfText => simp [inferLoop, save_results_fst]
    | modelError => simp [inferLoop]
    | token bytes =>
      cases hp : (pushUnit buf bytes).2 with
      | none =>
        simp only [inferLoop, hp]
        exact ih _ s
      | some chunk =>
        simp only [inferLoop, hp]
        split
        · simp
        · simp [save_results_fst]

theorem inferLoop_processed_le (scr : List ModelOutcome) :
    ∀ (buf : List Nat) (s : RunningInferenceSession),
      (inferLoop buf s scr).1.state.processed_tokens
        ≤ s.state.processed_tokens + 1 := by
  induction scr with
  | nil => intro buf s; simp [inferLoop]
  | cons o rest ih =>
    intro buf s
    cases o with
    | endOfText => simp [inferLoop, save_results_fst]
    | modelError => simp [inferLoop]
    | token bytes =>
      cases hp : (pushUnit buf bytes).2 with
      | none =>
        simp only [inferLoop, hp]
        exact ih _ s
      | some chunk =>
        simp only [inferLoop, hp]
        split
        · simp
        · simp [save_results_fst]

theorem inferLoop_sent_bound (scr : List ModelOutcome) :
    ∀ (buf : List Nat) (s : RunningInferenceSession),
      (inferLoop buf s scr).1.sent.length + s.state.processed_tokens
        ≤ s.sent.length + (inferLoop buf s scr).1.state.processed_tokens := by
  induction scr with
  | nil => intro buf s; simp [inferLoop]
  | cons o rest ih =>
    intro buf s
    cases o with
    | endOfText => simp [inferLoop, save_results_fst]
    | modelError => simp [inferLoop]
    | token bytes =>
      cases hp : (pushUnit buf bytes).2 with
      | none =>
        simp only [inferLoop, hp]
        exact ih _ s
      | some chunk =>
        simp only [inferLoop, hp]
        split
        · simp
          omega
        · simp [save_results_fst]

theorem inferLoop_modelErr (scr : List ModelOutcome) :
    ∀ (buf : List Nat) (s : RunningInferenceSession),
      (inferLoop buf s scr).2.2 = StepResult.modelErr →
      (inferLoop buf s scr).1 = { s with script := (inferLoop buf s scr).1.script }
        ∧ (inferLoop buf s scr).2.1 = [] := by
  induction scr with
  | nil => intro buf s _; exact ⟨rfl, rfl⟩
  | cons o rest ih =>
    intro buf s herr
    cases o with
    | endOfText => simp [inferLoop] at herr
    | modelError => exact ⟨rfl, rfl⟩
    | token bytes =>
      cases hp : (pushUnit buf bytes).2 with
      | none =>
        simp only [inferLoop, hp] at herr ⊢
        exact ih _ s herr
      | some chunk =>
        simp only [inferLoop, hp] at herr
        split at herr <;> simp at herr

theorem inferLoop_saved (scr : List ModelOutcome) :
    ∀ (buf : List Nat) (s : RunningInferenceSession),
      s.state.is_finished = false →
      (inferLoop buf s scr).2.1
        = stepRecords (inferLoop buf s scr).1.state.is_finished s.request.chat_data
            s.request.prompt (inferLoop buf s scr).1.state.answer := by
  induction scr with
  | nil =>
    intro buf s hfin
    simp [inferLoop, stepRecords, hfin]
  | cons o rest ih =>
    intro buf s hfin
    cases o with
    | endOfText => simp [inferLoop, save_results_fst, save_results_snd, stepRecords]
    | modelError => simp [inferLoop, stepRecords, hfin]
    | token bytes =>
      cases hp : (pushUnit buf bytes).2 with
      | none =>
        simp only [inferLoop, hp]
        exact ih _ s hfin
      | some chunk =>
        simp only [inferLoop, hp]
        split
        · simp [stepRecords, hfin]
        · simp [save_results_fst, save_results_snd, stepRecords]

theorem inferLoop_answer (scr : List ModelOutcome) :
    ∀ (buf : List Nat) (s : RunningInferenceSession),
      s.state.answer = concatStrings s.produced →
      (inferLoop buf s scr).1.state.answer
        = concatStrings (inferLoop buf s scr).1.produced := by
  induction scr with
  | nil => intro buf s h; simpa [inferLoop] using h
  | cons o rest ih =>
    intro buf s h
    cases o with
    | endOfText => simpa [inferLoop, save_results_fst] using h
    | modelError => simpa [inferLoop] using h
    | token bytes =>
      cases hp : (pushUnit buf bytes).2 with
      | none =>
        simp only [inferLoop, hp]
        exact ih _ s h
      | some chunk =>
        simp only [inferLoop, hp]
        split
        · simp [concatStrings_snoc, h]
        · simp [save_results_fst, concatStrings_snoc, h]

/-! ## Scheduler lemmas -/

theorem tick_running (cfg : LlmConfig) (lock_ok : Bool) (st : SchedulerState) :
    (tick cfg lock_ok st).running
      = ((admitPhase cfg lock_ok st).running.map
          (fun s => (step_session s).1)).filter (fun s => !s.state.is_finished) := rfl

theorem get_inference_session_inv (req : InferenceRequest) (id : Nat) :
    SessionInv (get_inference_session req id) := by
  constructor
  · simp [get_inference_session]
  · intro n hn
    simp [get_inference_session]

theorem admitLoop_admitted_le (q : List InferenceRequest) :
    ∀ f id, (admitLoop q f id).admitted.length ≤ f := by
  induction q with
  | nil => intro f id; simp [admitLoop]
  | cons r rest ih =>
    intro f id
    by_cases hf : 0 < f
    · by_cases hok : r.feed_ok
      · have := ih (f - 1) (id + 1)
        simp [admitLoop, hf, hok]
        omega
      · have := ih f id
        simp [admitLoop, hf, hok]
        omega
    · simp [admitLoop, hf]

theorem admitLoop_admitted_inv (q : List InferenceRequest) :
    ∀ f id, ∀ x ∈ (admitLoop q f id).admitted, SessionInv x := by
  induction q with
  | nil => intro f id x hx; simp [admitLoop] at hx
  | cons r rest ih =>
    intro f id x hx
    by_cases hf : 0 < f
    · by_cases hok : r.feed_ok
      · simp [admitLoop, hf, hok] at hx
        rcases hx with rfl | hx
        · exact get_inference_session_inv r id
        · exact ih (f - 1) (id + 1) x hx
      · simp [admitLoop, hf, hok] at hx
        exact ih f id x hx
    · simp [admitLoop, hf] at hx

theorem admitPhase_running (cfg : LlmConfig) (lock_ok : Bool) (st : SchedulerState) :
    ∃ extra, (admitPhase cfg lock_ok st).running = st.running ++ extra
      ∧ extra.length ≤ cfg.max_inference_sessions - st.running.length
      ∧ ∀ x ∈ extra, SessionInv x := by
  by_cases h1 : 0 < cfg.max_inference_sessions - st.running.length
  · cases lock_ok with
    | false => exact ⟨[], by simp [admitPhase, h1], by simp, by simp⟩
    | true =>
      refine ⟨(admitLoop st.queue (cfg.max_inference_sessions - st.running.length)
          st.next_id).admitted, by simp [admitPhase, h1], ?_, ?_⟩
      · exact admitLoop_admitted_le _ _ _
      · exact admitLoop_admitted_inv _ _ _
  · exact ⟨[], by simp [admitPhase, h1], by simp, by simp⟩

theorem step_session_inv (s : RunningInferenceSession) (h : SessionInv s) :
    SessionInv (step_session s).1 := by
  by_cases hlim : withinLimit s
  · have hstep : (step_session s).1 = (infer_next_token s).1 := by
      simp [step_session, hlim]
    rw [hstep]
    constructor
    · have h1 := inferLoop_sent_bound s.script [] s
      have h2 := h.1
      unfold infer_next_token
      omega
    · intro n hn
      have hreq := inferLoop_request s.script [] s
      have h3 := inferLoop_processed_le s.script [] s
      have hn2 : s.request.num_predict = some n := by
        rw [← hreq]
        exact hn
      have h4 : s.state.processed_tokens ≤ n := by
        unfold withinLimit at hlim
        rw [hn2] at hlim
        exact of_decide_eq_true hlim
      unfold infer_next_token
      omega
  · have hstep : (step_session s).1 = { s with state.is_finished := true } := by
      simp [step_session, hlim]
    rw [hstep]
    exact ⟨h.1, h.2⟩

theorem tick_preserves_SchedInv (cfg : LlmConfig) (lock_ok : Bool)
    (st : SchedulerState) (h : SchedInv st) : SchedInv (tick cfg lock_ok st) := by
  intro s' hs'
  rw [tick_running] at hs'
  have hs2 := (List.mem_filter.mp hs').1
  obtain ⟨s0, hs0, rfl⟩ := List.mem_map.mp hs2
  apply step_session_inv
  obtain ⟨extra, heq, -, hinve⟩ := admitPhase_running cfg lock_ok st
  rw [heq] at hs0
  rcases List.mem_append.mp hs0 with h0 | h0
  · exact h s0 h0
  · exact hinve s0 h0

/-! ## Claim theorems: scheduler -/

/-- C1: evaluation of the scheduler tick at the failing input.  With
max_inference_sessions = 1 and two feed-ready requests queued, one tick
admits the first request and then pops the second from the queue and
discards it with no feed attempt (the while-let condition evaluates
pop_front before checking free_spots): the queue is left empty and the
second request lands in the discarded-without-feed log even though its
prompt feed would have succeeded — contradicting the claim that at most
free-capacity requests are dequeued and that the second request remains
queued. -/
theorem C1_second_request_popped_and_dropped :
    (tick cfgOne true stTwoQueued).queue = []
      ∧ (tick cfgOne true stTwoQueued).dropped_unfed = [reqB]
      ∧ (tick cfgOne true stTwoQueued).running.length = 1
      ∧ reqB.feed_ok = true := by decide

/-- C2: the number of active sessions never exceeds max_inference_sessions:
a tick from any state within the cap stays within the cap; the admission
loop admits at most free-capacity sessions (so the bound also holds
transiently, the active list only growing by appends within that
budget); and an activation failure consumes no slot (the admitted list
is unchanged by a failed-feed request). -/
theorem C2_capacity_invariant (cfg : LlmConfig) (lock_ok : Bool)
    (st : SchedulerState) (h : st.running.length ≤ cfg.max_inference_sessions) :
    (tick cfg lock_ok st).running.length ≤ cfg.max_inference_sessions
      ∧ (∀ q f id, (admitLoop q f id).admitted.length ≤ f)
      ∧ (∀ req rest f id, req.feed_ok = false → 0 < f →
          (admitLoop (req :: rest) f id).admitted = (admitLoop rest f id).admitted) := by
  refine ⟨?_, fun q f id => admitLoop_admitted_le q f id, ?_⟩
  · obtain ⟨extra, heq, hle, -⟩ := admitPhase_running cfg lock_ok st
    have h1 : (tick cfg lock_ok st).running.length
        ≤ (admitPhase cfg lock_ok st).running.length := by
      rw [tick_running]
      exact (List.length_filter_le _ _).trans (by rw [List.length_map])
    rw [heq, List.length_append] at h1
    omega
  · intro req rest f id hok hf
    simp [admitLoop, hf, hok]

/-- C2 witness: the capacity bound instantiated at the concrete
one-slot configuration with two queued requests. -/
theorem C2_capacity_invariant_witness :
    stTwoQueued.running.length ≤ cfgOne.max_inference_sessions
      ∧ (tick cfgOne true stTwoQueued).running.length ≤ cfgOne.max_inference_sessions :=
  ⟨by decide, (C2_capacity_invariant cfgOne true stTwoQueued (by decide)).1⟩

/-- C3 counterexample: a session whose step fails with a model error is
NOT removed by the reap pass: after a full tick on a state holding only
the erroring session, that session is still in the active set with its
finished flag still false — refuting immediate termination and removal
on the next reap pass. -/
theorem C3_counterexample_not_reaped :
    (tick cfgOne true stErr).running.map (fun s => (s.id, s.state.is_finished))
      = [(7, false)]
      ∧ stErr.running.map (fun s => (s.id, s.state.is_finished)) = [(7, false)] := by
  decide

/-- C3 (amended): when a step for an active session fails with a model
error the failure is only logged: no CompletionRecord is emitted and the
session is not marked finished — it remains in the active set after the
tick (so it will be stepped again on later ticks, an implicit retry) —
while stepping is pointwise over the active list, so no other session
is affected, and the tick function (the scheduler loop body) is total. -/
theorem C3_amended_error_session_stays (cfg : LlmConfig) (lock_ok : Bool)
    (st : SchedulerState) (s : RunningInferenceSession) (hmem : s ∈ st.running)
    (hfin : s.state.is_finished = false) (hlim : withinLimit s = true)
    (herr : (infer_next_token s).2.2 = StepResult.modelErr) :
    (infer_next_token s).1 ∈ (tick cfg lock_ok st).running
      ∧ (infer_next_token s).2.1 = []
      ∧ (infer_next_token s).1.state.is_finished = false
      ∧ (∀ l1 l2 : List RunningInferenceSession,
          stepAll (l1 ++ l2)
            = ((stepAll l1).1 ++ (stepAll l2).1, (stepAll l1).2 ++ (stepAll l2).2)) := by
  obtain ⟨heq, hsa⟩ := inferLoop_modelErr s.script [] s herr
  have hfin2 : (infer_next_token s).1.state.is_finished = false := by
    have h2 : (infer_next_token s).1
        = { s with script := (infer_next_token s).1.script } := heq
    rw [h2]
    exact hfin
  refine ⟨?_, hsa, hfin2, ?_⟩
  · obtain ⟨extra, hrun, -, -⟩ := admitPhase_running cfg lock_ok st
    have hmem2 : s ∈ (admitPhase cfg lock_ok st).running := by
      rw [hrun]; exact List.mem_append_left _ hmem
    have hstep : (step_session s).1 = (infer_next_token s).1 := by
      simp [step_session, hlim]
    rw [tick_running]
    refine List.mem_filter.mpr ⟨?_, by simp [hfin2]⟩
    rw [← hstep]
    exact List.mem_map_of_mem _ hmem2
  · intro l1 l2
    simp [stepAll]

/-- C3 witness: the amended statement instantiated at the concrete
erroring session. -/
theorem C3_amended_witness :
    (sErr ∈ stErr.running ∧ sErr.state.is_finished = false
        ∧ withinLimit sErr = true
        ∧ (infer_next_token sErr).2.2 = StepResult.modelErr)
      ∧ (infer_next_token sErr).1 ∈ (tick cfgOne true stErr).running :=
  ⟨⟨by decide, rfl, rfl, rfl⟩,
   (C3_amended_error_session_stays cfgOne true stErr sErr (by decide) rfl rfl rfl).1⟩

/-- C4 counterexample: a session with token limit 0 still emits one
chunk (the gate is an inclusive comparison), refuting the claim that at
most N chunks are emitted for limit N. -/
theorem C4_counterexample_limit_zero :
    sLim.request.num_predict = some 0
      ∧ (tick cfgOne true stLim).running.map (fun s => s.sent) = [["H"]] := by decide

/-- C4 (amended): a session whose limit is N emits at most N + 1 chunks
to the caller (the step gate is processed_tokens <= N inclusive, and
each step emits at most one chunk while bumping the processed count):
the per-session bookkeeping invariant is preserved by every tick, a
session already strictly past its limit is marked finished without being
stepped (and emits nothing), and the invariant bounds the delivered
chunks of a limit-N session by N + 1. -/
theorem C4_amended_token_limit (cfg : LlmConfig) (lock_ok : Bool)
    (st : SchedulerState) (hinv : SchedInv st) :
    SchedInv (tick cfg lock_ok st)
      ∧ (∀ s, withinLimit s = false →
          step_session s = ({ s with state.is_finished := true }, []))
      ∧ (∀ s n, SessionInv s → s.request.num_predict = some n →
          s.sent.length ≤ n + 1) := by
  refine ⟨tick_preserves_SchedInv cfg lock_ok st hinv, ?_, ?_⟩
  · intro s hl
    simp [step_session, hl]
  · intro s n hi hn
    have h1 := hi.1
    have h2 := hi.2 n hn
    omega

/-- C4 witness: the invariant preservation instantiated at the concrete
limit-zero state. -/
theorem C4_amended_witness :
    SchedInv stLim ∧ SchedInv (tick cfgOne true stLim) := by
  have hinv : SchedInv stLim := by
    intro s hs
    have hs2 : s = sLim := by
      have h3 : stLim.running = [sLim] := rfl
      rw [h3] at hs
      exact List.mem_singleton.mp hs
    subst hs2
    constructor
    · decide
    · intro n hn
      have h0 : some 0 = some n := hn
      injection h0 with h1
      subst h1
      decide
  exact ⟨hinv, (C4_amended_token_limit cfgOne true stLim hinv).1⟩

/-- C5 counterexample: a conversational session with a non-empty
accumulated answer that terminates through token-limit exhaustion
produces no CompletionRecord at all (the limit branch sets the finished
flag directly without calling save_results), refuting the claim that
every non-model-error termination cause yields exactly one record. -/
theorem C5_counterexample_limit_exhaustion_no_record :
    sExh.request.chat_data.isSome = true
      ∧ sExh.state.answer.isEmpty = false
      ∧ (tick cfgOne true stExh).saved_log = []
      ∧ (tick cfgOne true stExh).running = [] := by decide

/-- C5 (amended): for an unfinished session, one inference step emits
exactly one CompletionRecord — carrying the conversation id, the
original user input and the accumulated answer — precisely when the step
finished the session (stream end or dropped receiver) while the request
carried conversation context and the accumulated answer was non-empty,
and zero records otherwise; a session reaped through the token-limit
gate emits no record. -/
theorem C5_amended_records (s : RunningInferenceSession)
    (hfin : s.state.is_finished = false) :
    (infer_next_token s).2.1
      = stepRecords (infer_next_token s).1.state.is_finished s.request.chat_data
          s.request.prompt (infer_next_token s).1.state.answer
      ∧ (∀ s2, withinLimit s2 = false → (step_session s2).2 = []) :=
  ⟨inferLoop_saved s.script [] s hfin,
   fun s2 hl => by simp [step_session, hl]⟩

/-- C5 witness: the record characterization instantiated at the
concrete dropped-receiver session. -/
theorem C5_amended_witness :
    sDrop.state.is_finished = false
      ∧ (infer_next_token sDrop).2.1
          = stepRecords (infer_next_token sDrop).1.state.is_finished
              sDrop.request.chat_data sDrop.request.prompt
              (infer_next_token sDrop).1.state.answer :=
  ⟨rfl, (C5_amended_records sDrop rfl).1⟩

/-- C6: accumulator round trip: for any raw-unit sequence the emitted
chunks concatenate (with the final pending bytes) to exactly the bytes
of the input sequence — in particular to the full decoded text whenever
nothing is left pending — no chunk is ever an invalid (incomplete) text
sequence, and at the session level the accumulated answer always equals
the concatenation of the chunks the session produced. -/
theorem C6_accumulator_roundtrip :
    (∀ units : List (List Nat),
        (runAccum units).2.flatten ++ (runAccum units).1 = units.flatten)
      ∧ (∀ units : List (List Nat), (runAccum units).1 = [] →
          (runAccum units).2.flatten = units.flatten)
      ∧ (∀ units : List (List Nat), ∀ c ∈ (runAccum units).2, validUtf8 c = true)
      ∧ (∀ s : RunningInferenceSession, s.state.answer = concatStrings s.produced →
          (infer_next_token s).1.state.answer
            = concatStrings (infer_next_token s).1.produced) := by
  have key : ∀ units : List (List Nat),
      (runAccum units).2.flatten ++ (runAccum units).1 = units.flatten := by
    intro units
    simpa [runAccum] using runAccumFrom_concat units [] []
  refine ⟨key, ?_, ?_, ?_⟩
  · intro units h
    have h2 := key units
    rw [h] at h2
    simpa using h2
  · intro units
    exact runAccumFrom_valid units [] [] (by simp)
  · intro s h
    exact inferLoop_answer s.script [] s h

/-- C6 witness: the round trip instantiated on a three-byte sequence
split across pushes, and the answer-chunk equality at a concrete
session. -/
theorem C6_witness :
    ((runAccum [[226], [130], [172], [72]]).1 = []
        ∧ (runAccum [[226], [130], [172], [72]]).2.flatten
            = [[226], [130], [172], [72]].flatten)
      ∧ (sEnd.state.answer = concatStrings sEnd.produced
          ∧ (infer_next_token sEnd).1.state.answer
              = concatStrings (infer_next_token sEnd).1.produced) :=
  ⟨⟨by decide, C6_accumulator_roundtrip.2.1 _ (by decide)⟩,
   ⟨by decide, C6_accumulator_roundtrip.2.2.2 sEnd (by decide)⟩⟩

/-- C10: a step that returns a model error (the non end-of-text error)
leaves every observable part of the session unchanged — progress state
(processed count, answer, finished flag, prompt), delivered chunks and
produced chunks — emits no completion record, and every step starts
from a fresh empty byte buffer, so bytes buffered toward an incomplete
chunk within the failing step are discarded. -/
theorem C10_model_error_no_observable_change (s : RunningInferenceSession)
    (herr : (infer_next_token s).2.2 = StepResult.modelErr) :
    (infer_next_token s).1.state = s.state
      ∧ (infer_next_token s).1.sent = s.sent
      ∧ (infer_next_token s).1.produced = s.produced
      ∧ (infer_next_token s).2.1 = []
      ∧ infer_next_token s = inferLoop [] s s.script := by
  obtain ⟨heq, hsa⟩ := inferLoop_modelErr s.script [] s herr
  have heq2 : (infer_next_token s).1
      = { s with script := (infer_next_token s).1.script } := heq
  refine ⟨?_, ?_, ?_, hsa, rfl⟩
  · rw [heq2]
  · rw [heq2]
  · rw [heq2]

/-- C10 witness: the no-observable-change property instantiated at the
concrete erroring session. -/
theorem C10_witness :
    (infer_next_token sErr).2.2 = StepResult.modelErr
      ∧ (infer_next_token sErr).1.state = sErr.state
      ∧ (infer_next_token sErr).2.1 = [] :=
  ⟨rfl, (C10_model_error_no_observable_change sErr rfl).1,
   (C10_model_error_no_observable_change sErr rfl).2.2.2.1⟩

end AIrtifex
